import Mathlib

/-!
Shallow embedding of the seed-language catalog, the key jar and the seed
time-view code of the OTS library (src/ots/src/seed-language.cpp,
src/ots/src/keyjar.cpp, src/ots/src/seed.cpp and the OTS conversion stubs),
with theorems checking the specified contracts against it.

Static mutable state of the C++ (the catalog vector SeedLanguage::s_list,
the default map SeedLanguage::s_default, the jar map KeyJar::keys_) is
passed explicitly; random draws of std::random_device are an explicit
stream of values.
-/

/-- Network enum of ots.hpp. -/
inductive Network
  | MAIN
  | TEST
  | STAGE
deriving DecidableEq, Repr

/-- SeedType enum of ots.hpp. -/
inductive SeedType
  | Monero
  | Polyseed
deriving DecidableEq, Repr

/-- The exception kinds of ots-exceptions.hpp that the embedded code raises. -/
inductive OtsErr
  | LanguageNotFound
  | NoDefaultLanguageSet
  | NotImplementedYet
deriving DecidableEq, Repr

/-- A SeedLanguage value: code, native name, English name and the per-type
support map m_supported (std::map<SeedType, bool> as an association list). -/
structure SeedLanguage where
  m_code : String
  m_name : String
  m_englishName : String
  m_supported : List (SeedType × Bool)
deriving DecidableEq, Repr

/-- SeedLanguage::name. -/
def SeedLanguage.name (l : SeedLanguage) : String := l.m_name

/-- SeedLanguage::englishName. -/
def SeedLanguage.englishName (l : SeedLanguage) : String := l.m_englishName

/-- SeedLanguage::code. -/
def SeedLanguage.code (l : SeedLanguage) : String := l.m_code

/-- The static member SeedLanguage::s_list. It is default-constructed empty
and no code in the repository ever assigns to it: the lazy population in
SeedLanguage::list() is an empty TODO block. -/
def s_list : List SeedLanguage := []

/-- The static member SeedLanguage::s_default. It is default-constructed
empty and no code in the repository ever inserts into it. -/
def s_default : List (SeedType × SeedLanguage) := []

/-- SeedLanguage::list(): when the catalog is empty the TODO body does
nothing, so the current catalog is returned unchanged in every case. -/
def SeedLanguage.list (cat : List SeedLanguage) : List SeedLanguage := cat

/-- The loop body of SeedLanguage::supported: scan the catalog entries in
order and return the first binding found for the queried type in any
entry's m_supported map; false when no entry binds the type. -/
def findSupport (type : SeedType) : List SeedLanguage → Bool
  | [] => false
  | item :: rest =>
    match item.m_supported.lookup type with
    | some b => b
    | none => findSupport type rest

/-- SeedLanguage::supported: iterates over list() and returns the first
binding for the type found in any catalog entry's map, never consulting
the receiver's own m_supported map (the receiver is unused, as in the
source). -/
def SeedLanguage.supported (cat : List SeedLanguage) (self : SeedLanguage)
    (type : SeedType) : Bool :=
  findSupport type (SeedLanguage.list cat)

/-- SeedLanguage::isDefault: the default map binds the type and the bound
language's code equals the receiver's code. -/
def SeedLanguage.isDefault (dflt : List (SeedType × SeedLanguage))
    (self : SeedLanguage) (type : SeedType) : Bool :=
  match dflt.lookup type with
  | some l => l.m_code == self.m_code
  | none => false

/-- SeedLanguage::operator==: equality is solely by code. -/
def SeedLanguage.eq (a b : SeedLanguage) : Bool := a.m_code == b.m_code

/-- SeedLanguage::fromName: first catalog entry whose native name equals the
argument, else LanguageNotFound. -/
def SeedLanguage.fromName (cat : List SeedLanguage) (name : String) :
    Except OtsErr SeedLanguage :=
  match (SeedLanguage.list cat).find? (fun item => item.name == name) with
  | some item => Except.ok item
  | none => Except.error OtsErr.LanguageNotFound

/-- SeedLanguage::fromEnglishName: first catalog entry whose English name
equals the argument, else LanguageNotFound. -/
def SeedLanguage.fromEnglishName (cat : List SeedLanguage) (name : String) :
    Except OtsErr SeedLanguage :=
  match (SeedLanguage.list cat).find? (fun item => item.englishName == name) with
  | some item => Except.ok item
  | none => Except.error OtsErr.LanguageNotFound

/-- SeedLanguage::fromCode: first catalog entry whose code equals the
argument, else LanguageNotFound. -/
def SeedLanguage.fromCode (cat : List SeedLanguage) (code : String) :
    Except OtsErr SeedLanguage :=
  match (SeedLanguage.list cat).find? (fun item => item.code == code) with
  | some item => Except.ok item
  | none => Except.error OtsErr.LanguageNotFound

/-- SeedLanguage::listFor: keep the catalog entries for which supported
returns true, in catalog order. -/
def SeedLanguage.listFor (cat : List SeedLanguage) (type : SeedType) :
    List SeedLanguage :=
  (SeedLanguage.list cat).filter (fun item => SeedLanguage.supported cat item type)

/-- SeedLanguage::defaultLanguage: the binding of the default map at the
type, else NoDefaultLanguageSet. -/
def SeedLanguage.defaultLanguage (dflt : List (SeedType × SeedLanguage))
    (type : SeedType) : Except OtsErr SeedLanguage :=
  match dflt.lookup type with
  | some l => Except.ok l
  | none => Except.error OtsErr.NoDefaultLanguageSet

/-- crypto::secret_key: raw key bytes. -/
abbrev SecretKey := List Nat

/-- KeyJar::SecureKeyEntry: owned key bytes, label and access counter. -/
structure SecureKeyEntry where
  key : SecretKey
  label : String
  access_count : Nat
deriving DecidableEq, Repr

/-- KeyJar: the handle-indexed map keys_ (std::unordered_map as an
association list with distinct keys). -/
structure KeyJar where
  keys_ : List (Nat × SecureKeyEntry)
deriving DecidableEq, Repr

/-- A default-constructed KeyJar: empty map. -/
def KeyJar.empty : KeyJar := KeyJar.mk []

/-- keys_.find(handle) != keys_.end(). -/
def KeyJar.handleInUse (j : KeyJar) (h : Nat) : Bool :=
  (j.keys_.lookup h).isSome

/-- KeyJar::generateHandle: keep drawing from the random stream until a
draw is nonzero and not already a key of the jar; none when the stream is
exhausted (where the C++ do-while would draw again). -/
def KeyJar.generateHandle (j : KeyJar) : List Nat → Option Nat
  | [] => none
  | d :: rest =>
    if d == 0 || j.handleInUse d then j.generateHandle rest else some d

/-- KeyJar::cleanupUnusedKeys: its body is empty (policy unimplemented). -/
def KeyJar.cleanupUnusedKeys (j : KeyJar) : KeyJar := j

/-- KeyJar::storeKey: generate a fresh handle, emplace a new entry for it
with access_count 0, run the opportunistic cleanup, return the handle. -/
def KeyJar.storeKey (j : KeyJar) (key : SecretKey) (label : String)
    (draws : List Nat) : Option (Nat × KeyJar) :=
  match j.generateHandle draws with
  | none => none
  | some h =>
    some (h, KeyJar.cleanupUnusedKeys (KeyJar.mk ((h, SecureKeyEntry.mk key label 0) :: j.keys_)))

/-- The entry update of KeyJar::getKey: the matched entry gets its
access_count incremented, every other entry is unchanged. -/
def bumpEntry (h : Nat) (p : Nat × SecureKeyEntry) : Nat × SecureKeyEntry :=
  if p.1 == h then (p.1, SecureKeyEntry.mk p.2.key p.2.label (p.2.access_count + 1)) else p

/-- KeyJar::getKey: nullptr (none) when the handle is absent; otherwise
bump the entry's access_count and return its key. The updated jar is the
second component. -/
def KeyJar.getKey (j : KeyJar) (h : Nat) : Option SecretKey × KeyJar :=
  match j.keys_.lookup h with
  | none => (none, j)
  | some e => (some e.key, KeyJar.mk (j.keys_.map (bumpEntry h)))

/-- KeyJar::removeKey: keys_.erase(handle) > 0 — true exactly when an entry
for the handle was present; the entry is gone afterwards. -/
def KeyJar.removeKey (j : KeyJar) (h : Nat) : Bool × KeyJar :=
  (j.handleInUse h, KeyJar.mk (j.keys_.filter (fun p => p.1 != h)))

/-- One KeyJar API call, with the random draws a store consumes. -/
inductive JarOp
  | store (key : SecretKey) (label : String) (draws : List Nat)
  | remove (h : Nat)
  | get (h : Nat)

/-- Run a sequence of KeyJar calls; the second component collects every
handle storeKey returned, newest first. A store whose draw stream is
exhausted returns no handle and leaves the jar unchanged. -/
def KeyJar.runOps (j : KeyJar) : List JarOp → KeyJar × List Nat
  | [] => (j, [])
  | JarOp.store k l d :: rest =>
    match j.storeKey k l d with
    | none => j.runOps rest
    | some (h, j1) => ((j1.runOps rest).1, h :: (j1.runOps rest).2)
  | JarOp.remove h :: rest => ((j.removeKey h).2).runOps rest
  | JarOp.get h :: rest => ((j.getKey h).2).runOps rest

/-- Seed: the fields of the abstract base class that the birthday/height
code reads (ots.hpp; m_key and word values play no role here). -/
structure Seed where
  m_birthday : Nat
  m_height : Nat
  m_values : List Int
  m_network : Network
deriving DecidableEq, Repr

/-- OTS::heightFromTimestamp: NOT_IMPLEMENTED_YET() — throws on every
input. -/
def OTS.heightFromTimestamp (timestamp : Nat) (network : Network) :
    Except OtsErr Nat :=
  Except.error OtsErr.NotImplementedYet

/-- OTS::timestampFromHeight: NOT_IMPLEMENTED_YET() — throws on every
input. -/
def OTS.timestampFromHeight (height : Nat) (network : Network) :
    Except OtsErr Nat :=
  Except.error OtsErr.NotImplementedYet

/-- Seed::birthday (const): return m_birthday when nonzero, else convert
m_height. The Seed after the call is the second component. -/
def Seed.birthday (s : Seed) : Except OtsErr Nat × Seed :=
  if s.m_birthday != 0 then (Except.ok s.m_birthday, s)
  else (OTS.timestampFromHeight s.m_height s.m_network, s)

/-- Seed::height (const): convert m_birthday when m_height is zero and
m_birthday nonzero, else return m_height. The Seed after the call is the
second component. -/
def Seed.height (s : Seed) : Except OtsErr Nat × Seed :=
  if s.m_height == 0 && s.m_birthday != 0 then
    (OTS.heightFromTimestamp s.m_birthday s.m_network, s)
  else (Except.ok s.m_height, s)

/-! Concrete catalog entries used as test inputs. -/

/-- A catalog entry whose map marks Monero supported. -/
def langAA : SeedLanguage :=
  SeedLanguage.mk ("aa") ("AaNative") ("AaEnglish") [(SeedType.Monero, true)]

/-- A catalog entry whose own map marks Monero unsupported. -/
def langBB : SeedLanguage :=
  SeedLanguage.mk ("bb") ("BbNative") ("BbEnglish") [(SeedType.Monero, false)]

/-- A two-entry catalog: langAA first, langBB second. -/
def catAB : List SeedLanguage := [langAA, langBB]

/-! ## Claim theorems for the SeedLanguage component -/

/-- Claim C6: with the catalog as shipped (never populated, the lazy
population is an empty TODO), list() is empty, listFor is empty for every
SeedType, and fromName, fromEnglishName and fromCode raise LanguageNotFound
on every argument. -/
theorem shipped_catalog_empty :
    SeedLanguage.list s_list = []
    ∧ (∀ t : SeedType, SeedLanguage.listFor s_list t = [])
    ∧ (∀ n : String, SeedLanguage.fromName s_list n = Except.error OtsErr.LanguageNotFound)
    ∧ (∀ n : String, SeedLanguage.fromEnglishName s_list n = Except.error OtsErr.LanguageNotFound)
    ∧ (∀ c : String, SeedLanguage.fromCode s_list c = Except.error OtsErr.LanguageNotFound) :=
  ⟨rfl, fun _ => rfl, fun _ => rfl, fun _ => rfl, fun _ => rfl⟩

/-- Claim C7: each of the three lookups raises LanguageNotFound exactly when
no catalog entry's corresponding field equals the argument under exact
string equality, and on success it returns a catalog entry whose field is
exactly the argument — never a substitute. -/
theorem seedlanguage_lookup_exact (cat : List SeedLanguage) (s : String) :
    (SeedLanguage.fromName cat s = Except.error OtsErr.LanguageNotFound
      ↔ ∀ e ∈ cat, e.m_name ≠ s)
    ∧ (SeedLanguage.fromEnglishName cat s = Except.error OtsErr.LanguageNotFound
      ↔ ∀ e ∈ cat, e.m_englishName ≠ s)
    ∧ (SeedLanguage.fromCode cat s = Except.error OtsErr.LanguageNotFound
      ↔ ∀ e ∈ cat, e.m_code ≠ s)
    ∧ (∀ l, SeedLanguage.fromName cat s = Except.ok l → l ∈ cat ∧ l.m_name = s)
    ∧ (∀ l, SeedLanguage.fromEnglishName cat s = Except.ok l → l ∈ cat ∧ l.m_englishName = s)
    ∧ (∀ l, SeedLanguage.fromCode cat s = Except.ok l → l ∈ cat ∧ l.m_code = s) := by
  refine ⟨?_, ?_, ?_, ?_, ?_, ?_⟩
  · unfold SeedLanguage.fromName SeedLanguage.list
    cases hf : cat.find? (fun item => item.name == s) with
    | none =>
      simp only []
      constructor
      · intro _ e he
        have := List.find?_eq_none.mp hf e he
        simpa [SeedLanguage.name] using this
      · intro _; trivial
    | some a =>
      simp only []
      constructor
      · intro hcontra; cases hcontra
      · intro hall
        have ha := List.find?_some hf
        have hmem := List.mem_of_find?_eq_some hf
        have := hall a hmem
        simp only [SeedLanguage.name, beq_iff_eq] at ha
        exact absurd ha this
  · unfold SeedLanguage.fromEnglishName SeedLanguage.list
    cases hf : cat.find? (fun item => item.englishName == s) with
    | none =>
      simp only []
      constructor
      · intro _ e he
        have := List.find?_eq_none.mp hf e he
        simpa [SeedLanguage.englishName] using this
      · intro _; trivial
    | some a =>
      simp only []
      constructor
      · intro hcontra; cases hcontra
      · intro hall
        have ha := List.find?_some hf
        have hmem := List.mem_of_find?_eq_some hf
        have := hall a hmem
        simp only [SeedLanguage.englishName, beq_iff_eq] at ha
        exact absurd ha this
  · unfold SeedLanguage.fromCode SeedLanguage.list
    cases hf : cat.find? (fun item => item.code == s) with
    | none =>
      simp only []
      constructor
      · intro _ e he
        have := List.find?_eq_none.mp hf e he
        simpa [SeedLanguage.code] using this
      · intro _; trivial
    | some a =>
      simp only []
      constructor
      · intro hcontra; cases hcontra
      · intro hall
        have ha := List.find?_some hf
        have hmem := List.mem_of_find?_eq_some hf
        have := hall a hmem
        simp only [SeedLanguage.code, beq_iff_eq] at ha
        exact absurd ha this
  · intro l hl
    unfold SeedLanguage.fromName SeedLanguage.list at hl
    cases hf : cat.find? (fun item => item.name == s) with
    | none => rw [hf] at hl; cases hl
    | some a =>
      rw [hf] at hl
      cases hl
      have ha := List.find?_some hf
      have hmem := List.mem_of_find?_eq_some hf
      simp only [SeedLanguage.name, beq_iff_eq] at ha
      exact ⟨hmem, ha⟩
  · intro l hl
    unfold SeedLanguage.fromEnglishName SeedLanguage.list at hl
    cases hf : cat.find? (fun item => item.englishName == s) with
    | none => rw [hf] at hl; cases hl
    | some a =>
      rw [hf] at hl
      cases hl
      have ha := List.find?_some hf
      have hmem := List.mem_of_find?_eq_some hf
      simp only [SeedLanguage.englishName, beq_iff_eq] at ha
      exact ⟨hmem, ha⟩
  · intro l hl
    unfold SeedLanguage.fromCode SeedLanguage.list at hl
    cases hf : cat.find? (fun item => item.code == s) with
    | none => rw [hf] at hl; cases hl
    | some a =>
      rw [hf] at hl
      cases hl
      have ha := List.find?_some hf
      have hmem := List.mem_of_find?_eq_some hf
      simp only [SeedLanguage.code, beq_iff_eq] at ha
      exact ⟨hmem, ha⟩

/-- Witness for C7 at a concrete catalog and a missing name. -/
theorem seedlanguage_lookup_exact_witness :
    SeedLanguage.fromName catAB ("nope") = Except.error OtsErr.LanguageNotFound
    ∧ langAA ∈ catAB ∧ langAA.m_code = "aa" :=
  ⟨((seedlanguage_lookup_exact catAB ("nope")).1).mpr (by decide),
   ((seedlanguage_lookup_exact catAB ("aa")).2.2.2.2.2) langAA rfl⟩

/-- A default map binding Monero to langAA, used as a test input. -/
def dfltAB : List (SeedType × SeedLanguage) := [(SeedType.Monero, langAA)]

/-- Claim C8: defaultLanguage raises NoDefaultLanguageSet exactly when the
default map has no binding for the SeedType, and otherwise returns the
registered default. -/
theorem seedlanguage_default_spec (dflt : List (SeedType × SeedLanguage))
    (t : SeedType) :
    (SeedLanguage.defaultLanguage dflt t = Except.error OtsErr.NoDefaultLanguageSet
      ↔ dflt.lookup t = none)
    ∧ (∀ l, dflt.lookup t = some l → SeedLanguage.defaultLanguage dflt t = Except.ok l) := by
  refine ⟨?_, ?_⟩
  · cases hl : dflt.lookup t with
    | none => simp [SeedLanguage.defaultLanguage, hl]
    | some a => simp [SeedLanguage.defaultLanguage, hl]
  · intro l hl
    simp [SeedLanguage.defaultLanguage, hl]

/-- Witness for C8 at concrete default maps. -/
theorem seedlanguage_default_spec_witness :
    SeedLanguage.defaultLanguage dfltAB SeedType.Monero = Except.ok langAA
    ∧ SeedLanguage.defaultLanguage s_default SeedType.Monero
        = Except.error OtsErr.NoDefaultLanguageSet :=
  ⟨(seedlanguage_default_spec dfltAB SeedType.Monero).2 langAA rfl,
   ((seedlanguage_default_spec s_default SeedType.Monero).1).mpr rfl⟩

/-- Claim C9: looking a catalog entry's own code back up with fromCode
succeeds and yields an entry equal to it under SeedLanguage equality,
which compares only the code attribute. -/
theorem seedlanguage_fromcode_roundtrip (cat : List SeedLanguage) (i : Nat)
    (h : i < cat.length) :
    ∃ l, SeedLanguage.fromCode cat (SeedLanguage.code (cat.get ⟨i, h⟩)) = Except.ok l
      ∧ SeedLanguage.eq l (cat.get ⟨i, h⟩) = true := by
  cases hf : cat.find? (fun item => item.code == SeedLanguage.code (cat.get ⟨i, h⟩)) with
  | none =>
    exfalso
    have hmem : cat.get ⟨i, h⟩ ∈ cat := cat.get_mem i h
    have := List.find?_eq_none.mp hf (cat.get ⟨i, h⟩) hmem
    simp [SeedLanguage.code] at this
  | some a =>
    refine ⟨a, ?_, ?_⟩
    · unfold SeedLanguage.fromCode SeedLanguage.list
      rw [hf]
    · have ha := List.find?_some hf
      simpa [SeedLanguage.eq, SeedLanguage.code] using ha

/-- Witness for C9 at the concrete two-entry catalog, index 0. -/
theorem seedlanguage_fromcode_roundtrip_witness :
    ∃ l, SeedLanguage.fromCode catAB (SeedLanguage.code (catAB.get ⟨0, by decide⟩)) = Except.ok l
      ∧ SeedLanguage.eq l (catAB.get ⟨0, by decide⟩) = true :=
  seedlanguage_fromcode_roundtrip catAB 0 (by decide)

/-- Claim C3: supported ignores the receiver — langBB's own map marks
Monero unsupported, yet langBB.supported(Monero) returns true because the
scan over list() finds the binding of the first catalog entry langAA;
consequently listFor(Monero) keeps langBB as well. -/
theorem seedlanguage_supported_ignores_receiver :
    SeedLanguage.supported catAB langBB SeedType.Monero = true
    ∧ langBB.m_supported.lookup SeedType.Monero = some false
    ∧ SeedLanguage.listFor catAB SeedType.Monero = [langAA, langBB] :=
  ⟨rfl, rfl, rfl⟩

/-! ## KeyJar lemmas -/

/-- A successful generateHandle returns a nonzero handle that is not a key
of the jar. -/
theorem generateHandle_ok {j : KeyJar} {d : List Nat} {h : Nat}
    (e : j.generateHandle d = some h) : h ≠ 0 ∧ j.handleInUse h = false := by
  induction d with
  | nil => cases e
  | cons a rest ih =>
    unfold KeyJar.generateHandle at e
    split at e
    · exact ih e
    · rename_i hc
      cases e
      simp only [Bool.or_eq_true, beq_iff_eq, not_or, Bool.not_eq_true] at hc
      exact ⟨hc.1, hc.2⟩

/-- A successful storeKey used a fresh generated handle and prepended a new
entry with access_count 0. -/
theorem storeKey_some {j : KeyJar} {k : SecretKey} {l : String} {d : List Nat}
    {h : Nat} {j1 : KeyJar}
    (e : j.storeKey k l d = some (h, j1)) :
    j.generateHandle d = some h
    ∧ j1 = KeyJar.mk ((h, SecureKeyEntry.mk k l 0) :: j.keys_) := by
  unfold KeyJar.storeKey at e
  cases hg : j.generateHandle d with
  | none => rw [hg] at e; cases e
  | some h0 =>
    rw [hg] at e
    unfold KeyJar.cleanupUnusedKeys at e
    cases e
    exact ⟨rfl, rfl⟩

/-- Handle membership after prepending one entry. -/
theorem handleInUse_cons (h0 : Nat) (e0 : SecureKeyEntry)
    (tl : List (Nat × SecureKeyEntry)) (x : Nat) :
    (KeyJar.mk ((h0, e0) :: tl)).handleInUse x
      = (x == h0 || (KeyJar.mk tl).handleInUse x) := by
  unfold KeyJar.handleInUse
  cases hx : (x == h0)
  · simp [List.lookup, hx]
  · simp [List.lookup, hx]

/-! ## Claim theorems for KeyJar store behaviour -/

/-- Bit-identical key bytes reused across the two stores of the dedup
scenario. -/
def cexKey : SecretKey := [1]

/-- The jar after storing cexKey once under handle 1. -/
def cexJar1 : KeyJar := KeyJar.mk [(1, SecureKeyEntry.mk cexKey ("a") 0)]

/-- The jar after storing cexKey a second time, now also under handle 2. -/
def cexJar2 : KeyJar :=
  KeyJar.mk [(2, SecureKeyEntry.mk cexKey ("a") 0), (1, SecureKeyEntry.mk cexKey ("a") 0)]

/-- Claim C1 counterexample: storing bit-identical key bytes with the same
label twice returns two different handles (1 then 2) and the entry count
grows by two, not one — storeKey performs no deduplication. -/
theorem keyjar_dedup_counterexample :
    KeyJar.empty.storeKey cexKey ("a") [1] = some (1, cexJar1)
    ∧ cexJar1.storeKey cexKey ("a") [2] = some (2, cexJar2)
    ∧ (2 : Nat) ≠ 1
    ∧ cexJar2.keys_.length = KeyJar.empty.keys_.length + 2 :=
  ⟨rfl, rfl, by decide, rfl⟩

/-- Claim C1 (amended): a second storeKey with bit-identical key bytes and
the same label inserts a second entry under a handle distinct from the
first, and the jar's entry count increases by exactly two across the two
calls. -/
theorem keyjar_store_no_dedup (j : KeyJar) (k : SecretKey) (l : String)
    (d1 d2 : List Nat) (h1 h2 : Nat) (j1 j2 : KeyJar)
    (e1 : j.storeKey k l d1 = some (h1, j1))
    (e2 : j1.storeKey k l d2 = some (h2, j2)) :
    h2 ≠ h1 ∧ j2.keys_.length = j.keys_.length + 2 := by
  obtain ⟨hg1, hj1⟩ := storeKey_some e1
  obtain ⟨hg2, hj2⟩ := storeKey_some e2
  have hfresh := generateHandle_ok hg2
  constructor
  · intro heq
    have hin : j1.handleInUse h1 = true := by
      rw [hj1, handleInUse_cons]; simp
    have hout : j1.handleInUse h1 = false := heq ▸ hfresh.2
    rw [hin] at hout
    exact Bool.noConfusion hout
  · rw [hj2, hj1]
    simp

/-- Witness for the amended C1 at the concrete dedup scenario. -/
theorem keyjar_store_no_dedup_witness :
    (2 : Nat) ≠ 1 ∧ cexJar2.keys_.length = KeyJar.empty.keys_.length + 2 :=
  keyjar_store_no_dedup KeyJar.empty cexKey ("a") [1] [2] 1 2 cexJar1 cexJar2 rfl rfl

/-- The jar holding handle 5 before its removal. -/
def reuseJar1 : KeyJar := KeyJar.mk [(5, SecureKeyEntry.mk cexKey ("a") 0)]

/-- Unrelated key bytes stored after the removal. -/
def reuseKey2 : SecretKey := [2]

/-- The jar after the post-removal store, which reissued handle 5. -/
def reuseJar2 : KeyJar := KeyJar.mk [(5, SecureKeyEntry.mk reuseKey2 ("b") 0)]

/-- Claim C2 counterexample: after storing under handle 5 and removing it,
a store of an unrelated key with a random stream that draws 5 again is
issued handle 5 — the same value as the removed handle, within one jar
lifetime. -/
theorem keyjar_handle_reuse_counterexample :
    KeyJar.empty.storeKey cexKey ("a") [5] = some (5, reuseJar1)
    ∧ (reuseJar1.removeKey 5).1 = true
    ∧ ((reuseJar1.removeKey 5).2).storeKey reuseKey2 ("b") [5] = some (5, reuseJar2) :=
  ⟨rfl, rfl, rfl⟩

/-- Claim C2 (amended): every handle returned by storeKey is nonzero and
distinct from every handle present in the jar at the moment of issuance
(it is a new key of the map afterwards); handles of entries already
removed are not tracked and may be issued again. -/
theorem keyjar_fresh_handle (j : KeyJar) (k : SecretKey) (l : String)
    (d : List Nat) (h : Nat) (j1 : KeyJar)
    (e : j.storeKey k l d = some (h, j1)) :
    h ≠ 0 ∧ j.handleInUse h = false ∧ j1.handleInUse h = true := by
  obtain ⟨hg, hj⟩ := storeKey_some e
  have hok := generateHandle_ok hg
  refine ⟨hok.1, hok.2, ?_⟩
  rw [hj, handleInUse_cons]
  simp

/-- Witness for the amended C2 at the concrete reuse scenario. -/
theorem keyjar_fresh_handle_witness :
    (5 : Nat) ≠ 0 ∧ KeyJar.empty.handleInUse 5 = false
    ∧ reuseJar1.handleInUse 5 = true :=
  keyjar_fresh_handle KeyJar.empty cexKey ("a") [5] 5 reuseJar1 rfl

/-- Looking up the erased handle in the filtered map finds nothing. -/
theorem lookup_filter_self (tl : List (Nat × SecureKeyEntry)) (h : Nat) :
    (tl.filter (fun p => p.1 != h)).lookup h = none := by
  induction tl with
  | nil => rfl
  | cons p rest ih =>
    by_cases hp : p.1 = h
    · simp [List.filter_cons, hp, ih]
    · have hne : (p.1 != h) = true := by simp [hp]
      have hne2 : (h == p.1) = false := by simp [Ne.symm hp]
      simp [List.filter_cons, hne, List.lookup, hne2, ih]

/-- Erasing one handle leaves lookups of other handles unchanged. -/
theorem lookup_filter_other (tl : List (Nat × SecureKeyEntry)) (h x : Nat)
    (hx : x ≠ h) :
    (tl.filter (fun p => p.1 != h)).lookup x = tl.lookup x := by
  induction tl with
  | nil => rfl
  | cons p rest ih =>
    by_cases hp : p.1 = h
    · have hxh : (x == h) = false := by simp [hx]
      simp [List.filter_cons, hp, List.lookup, hxh, ih]
    · have hne : (p.1 != h) = true := by simp [hp]
      cases hxp : (x == p.1)
      · simp [List.filter_cons, hne, List.lookup, hxp, ih]
      · simp [List.filter_cons, hne, List.lookup, hxp]

/-- The access-count bump of getKey rewrites values only: whether a lookup
succeeds is unchanged for every handle. -/
theorem lookup_isSome_map_bump (tl : List (Nat × SecureKeyEntry)) (h x : Nat) :
    ((tl.map (bumpEntry h)).lookup x).isSome = (tl.lookup x).isSome := by
  induction tl with
  | nil => rfl
  | cons p rest ih =>
    obtain ⟨pk, pe⟩ := p
    by_cases hph : pk = h
    · have hb : bumpEntry h (pk, pe) = (pk, SecureKeyEntry.mk pe.key pe.label (pe.access_count + 1)) := by
        unfold bumpEntry
        rw [if_pos (by simp [hph])]
      cases hxp : (x == pk)
      · rw [List.map_cons, hb]
        simp [List.lookup, hxp, ih]
      · rw [List.map_cons, hb]
        simp [List.lookup, hxp]
    · have hb : bumpEntry h (pk, pe) = (pk, pe) := by
        unfold bumpEntry
        rw [if_neg (by simp [hph])]
      cases hxp : (x == pk)
      · rw [List.map_cons, hb]
        simp [List.lookup, hxp, ih]
      · rw [List.map_cons, hb]
        simp [List.lookup, hxp]

/-- getKey returns absent exactly when the handle is not a key of the jar. -/
theorem getKey_fst_none (j : KeyJar) (h : Nat) :
    (j.getKey h).1 = none ↔ j.handleInUse h = false := by
  unfold KeyJar.getKey KeyJar.handleInUse
  cases hl : j.keys_.lookup h <;> simp [hl]

/-- getKey never changes which handles are keys of the jar. -/
theorem handleInUse_getKey (j : KeyJar) (h x : Nat) :
    ((j.getKey h).2).handleInUse x = j.handleInUse x := by
  unfold KeyJar.getKey
  cases hl : j.keys_.lookup h with
  | none => simp only [hl]
  | some e =>
    simp only [hl]
    unfold KeyJar.handleInUse
    exact lookup_isSome_map_bump j.keys_ h x

/-- After removeKey the removed handle is no key of the jar. -/
theorem handleInUse_removeKey_self (j : KeyJar) (h : Nat) :
    ((j.removeKey h).2).handleInUse h = false := by
  unfold KeyJar.removeKey KeyJar.handleInUse
  simp [lookup_filter_self]

/-- removeKey leaves membership of other handles unchanged. -/
theorem handleInUse_removeKey_other (j : KeyJar) (h x : Nat) (hx : x ≠ h) :
    ((j.removeKey h).2).handleInUse x = j.handleInUse x := by
  unfold KeyJar.removeKey KeyJar.handleInUse
  simp [lookup_filter_other _ _ _ hx]

/-- Every key of the jar reached by a run of operations was either a key
at the start or was issued by some storeKey of the run. -/
theorem runOps_handle_tracked (ops : List JarOp) :
    ∀ (j : KeyJar) (x : Nat),
      ((j.runOps ops).1).handleInUse x = true →
      j.handleInUse x = true ∨ x ∈ (j.runOps ops).2 := by
  induction ops with
  | nil => exact fun j x hx => Or.inl hx
  | cons op rest ih =>
    intro j x hx
    cases op with
    | store k l d =>
      cases hs : j.storeKey k l d with
      | none =>
        simp only [KeyJar.runOps, hs] at hx ⊢
        exact ih j x hx
      | some pr =>
        obtain ⟨h, j1⟩ := pr
        simp only [KeyJar.runOps, hs] at hx ⊢
        cases ih j1 x hx with
        | inr hm => exact Or.inr (List.mem_cons_of_mem h hm)
        | inl hin =>
          obtain ⟨hg, hj1⟩ := storeKey_some hs
          rw [hj1, handleInUse_cons] at hin
          cases hxh : (x == h) with
          | true =>
            have : x = h := by simpa using hxh
            exact Or.inr (this ▸ List.mem_cons_self x _)
          | false =>
            rw [hxh] at hin
            simp only [Bool.false_or] at hin
            exact Or.inl hin
    | remove h2 =>
      simp only [KeyJar.runOps] at hx ⊢
      cases ih ((j.removeKey h2).2) x hx with
      | inr hm => exact Or.inr hm
      | inl hin =>
        by_cases hxh : x = h2
        · rw [hxh, handleInUse_removeKey_self] at hin
          exact Bool.noConfusion hin
        · rw [handleInUse_removeKey_other j h2 x hxh] at hin
          exact Or.inl hin
    | get h2 =>
      simp only [KeyJar.runOps] at hx ⊢
      cases ih ((j.getKey h2).2) x hx with
      | inr hm => exact Or.inr hm
      | inl hin =>
        rw [handleInUse_getKey] at hin
        exact Or.inl hin

/-- Claim C4: over any run of operations on a fresh jar, getKey is absent
for every handle no storeKey of the run returned; getKey is absent for the
removed handle right after removeKey; and removeKey reports true exactly
when an entry for the handle was present. -/
theorem keyjar_handle_validity :
    (∀ (ops : List JarOp) (h : Nat), h ∉ (KeyJar.empty.runOps ops).2 →
      (((KeyJar.empty.runOps ops).1).getKey h).1 = none)
    ∧ (∀ (j : KeyJar) (h : Nat), (((j.removeKey h).2).getKey h).1 = none)
    ∧ (∀ (j : KeyJar) (h : Nat), ((j.removeKey h).1 = true ↔ j.handleInUse h = true)) := by
  refine ⟨?_, ?_, ?_⟩
  · intro ops h hno
    rw [getKey_fst_none]
    cases hin : ((KeyJar.empty.runOps ops).1).handleInUse h with
    | false => rfl
    | true =>
      exfalso
      cases runOps_handle_tracked ops KeyJar.empty h hin with
      | inl habs => simp [KeyJar.handleInUse, KeyJar.empty] at habs
      | inr hm => exact hno hm
  · intro j h
    rw [getKey_fst_none]
    exact handleInUse_removeKey_self j h
  · intro j h
    exact Iff.rfl

/-- Operations of the concrete C4 scenario: one store issuing handle 1,
then its removal. -/
def opsW : List JarOp := [JarOp.store cexKey ("a") [1], JarOp.remove 1]

/-- Witness for C4: handle 7 was never issued by the run, so getKey 7 is
absent; getKey right after removing handle 5 is absent; removeKey 5
reported true on the jar holding 5. -/
theorem keyjar_handle_validity_witness :
    (((KeyJar.empty.runOps opsW).1).getKey 7).1 = none
    ∧ (((reuseJar1.removeKey 5).2).getKey 5).1 = none
    ∧ ((reuseJar1.removeKey 5).1 = true ↔ reuseJar1.handleInUse 5 = true) :=
  ⟨keyjar_handle_validity.1 opsW 7 (by decide),
   keyjar_handle_validity.2.1 reuseJar1 5,
   keyjar_handle_validity.2.2 reuseJar1 5⟩

/-! ## Claim theorems for the Seed time views -/

/-- Claim C5: birthday() and height() leave the Seed's stored fields
unchanged, and the zero view is computed on demand through the OTS
conversion collaborators, never written back. -/
theorem seed_time_views_frame (s : Seed) :
    ((Seed.birthday s).2 = s ∧ (Seed.height s).2 = s)
    ∧ (s.m_birthday = 0 →
        (Seed.birthday s).1 = OTS.timestampFromHeight s.m_height s.m_network)
    ∧ (s.m_height = 0 → s.m_birthday ≠ 0 →
        (Seed.height s).1 = OTS.heightFromTimestamp s.m_birthday s.m_network) := by
  refine ⟨⟨?_, ?_⟩, ?_, ?_⟩
  · unfold Seed.birthday
    split <;> rfl
  · unfold Seed.height
    split <;> rfl
  · intro h0
    unfold Seed.birthday
    simp [h0]
  · intro h0 hb
    unfold Seed.height
    simp [h0, hb]

/-- A Seed with only the height view set. -/
def seedHeightOnly : Seed := Seed.mk 0 7 [] Network.MAIN

/-- A Seed with only the birthday view set. -/
def seedBirthdayOnly : Seed := Seed.mk 9 0 [] Network.TEST

/-- Witness for C5 at a Seed with zero birthday and set height. -/
theorem seed_time_views_frame_witness :
    ((Seed.birthday seedHeightOnly).2 = seedHeightOnly
      ∧ (Seed.height seedHeightOnly).2 = seedHeightOnly)
    ∧ (Seed.birthday seedHeightOnly).1
        = OTS.timestampFromHeight seedHeightOnly.m_height seedHeightOnly.m_network :=
  ⟨(seed_time_views_frame seedHeightOnly).1,
   (seed_time_views_frame seedHeightOnly).2.1 rfl⟩

/-- Claim C10: both OTS conversions raise NotImplementedYet on every input,
so birthday() fails whenever m_birthday is zero, and height() fails
whenever m_height is zero and m_birthday nonzero. -/
theorem ots_conversions_not_implemented :
    (∀ (ts : Nat) (n : Network),
      OTS.heightFromTimestamp ts n = Except.error OtsErr.NotImplementedYet)
    ∧ (∀ (ht : Nat) (n : Network),
      OTS.timestampFromHeight ht n = Except.error OtsErr.NotImplementedYet)
    ∧ (∀ s : Seed, s.m_birthday = 0 →
      (Seed.birthday s).1 = Except.error OtsErr.NotImplementedYet)
    ∧ (∀ s : Seed, s.m_height = 0 → s.m_birthday ≠ 0 →
      (Seed.height s).1 = Except.error OtsErr.NotImplementedYet) := by
  refine ⟨fun _ _ => rfl, fun _ _ => rfl, ?_, ?_⟩
  · intro s h0
    unfold Seed.birthday
    simp [h0, OTS.timestampFromHeight]
  · intro s h0 hb
    unfold Seed.height
    simp [h0, hb, OTS.heightFromTimestamp]

/-- Witness for C10 at concrete inputs and Seeds. -/
theorem ots_conversions_not_implemented_witness :
    OTS.heightFromTimestamp 3 Network.MAIN = Except.error OtsErr.NotImplementedYet
    ∧ OTS.timestampFromHeight 7 Network.STAGE = Except.error OtsErr.NotImplementedYet
    ∧ (Seed.birthday seedHeightOnly).1 = Except.error OtsErr.NotImplementedYet
    ∧ (Seed.height seedBirthdayOnly).1 = Except.error OtsErr.NotImplementedYet :=
  ⟨ots_conversions_not_implemented.1 3 Network.MAIN,
   ots_conversions_not_implemented.2.1 7 Network.STAGE,
   ots_conversions_not_implemented.2.2.1 seedHeightOnly rfl,
   ots_conversions_not_implemented.2.2.2 seedBirthdayOnly rfl (by decide)⟩
